import Mathlib

/-!
# Verification of the connectchain MCP core

A shallow embedding, in Lean 4, of the core of the `connectchain` repository:

* `MCPToolLoader._apply_enterprise_settings` and the server-filter step of
  `MCPToolLoader.load_tools` (`connectchain/tools/mcp/loader.py`);
* `MCPToolAgent.ainvoke` / `MCPToolAgent.invoke` (`connectchain/tools/mcp/agent.py`);
* the enterprise-auth decision of `_get_model_` and the session-cache logic of
  `_get_openai_model_` (`connectchain/lcel/model.py`).

Python dictionaries that are shared by reference (the `env` mapping of a server
config survives the shallow `dict.copy()` in `_apply_enterprise_settings`) are
modelled with an explicit heap of environment dictionaries, so aliasing and
in-place mutation are observable.  Python exceptions are modelled with
`Except`; `RuntimeError` is distinguished from other exception classes because
`MCPToolAgent.invoke` catches exactly `RuntimeError`.
-/

namespace ConnectChain

/-! ## Environment dictionaries and the heap

`Env` models one Python `dict[str, str]` used as an `env` mapping: an
association list with the first binding of a key authoritative.  `Heap` models
the store of such dictionaries; a `ServerConfig.env` field holds a reference
(index) into the heap, `none` meaning the `"env"` key is absent from the
config dict. -/

abbrev Env := List (String × String)

/-- `d[k] = v` on a Python dict: overwrite the binding if the key is present,
otherwise append a new binding. -/
def envSet : Env → String → String → Env
  | [], k, v => [(k, v)]
  | p :: rest, k, v => if p.1 = k then (k, v) :: rest else p :: envSet rest k v

/-- `d.get(k)` on a Python dict. -/
def envLookup : Env → String → Option String
  | [], _ => none
  | p :: rest, k => if p.1 = k then some p.2 else envLookup rest k

abbrev Heap := List Env

/-- Dereference an env-dict reference (out-of-range defaults to `[]`; valid
states never dereference out of range). -/
def heapGet (h : Heap) (r : Nat) : Env := h.getD r []

/-- Overwrite the dict stored at reference `r`. -/
def heapSet (h : Heap) (r : Nat) (e : Env) : Heap := h.set r e

/-! ## Server configuration and the enterprise policy -/

/-- The optional `auth` descriptor of a server config (`{type: bearer}`). -/
structure AuthConfig where
  type : Option String
deriving DecidableEq, Repr

/-- One `mcp.servers` entry, restricted to the fields `_apply_enterprise_settings`
reads: `transport`, `auth`, and the `env` mapping (a heap reference; `none`
models the `"env"` key being absent).  The launch fields (`command`, `args`,
`url`) are never read by the settings derivation and are omitted. -/
structure ServerConfig where
  transport : Option String
  auth : Option AuthConfig
  env : Option Nat
deriving DecidableEq, Repr

/-- The enterprise policy bundle read off the global `Config` object:
`config.proxy`, `config.eas`, `config.cert`.  Each is an optional string whose
Python truthiness (`None` and `""` falsy) guards the corresponding injection;
`eas` stands for whatever truthiness-bearing value `config.eas` holds. -/
structure Policy where
  proxy : Option String
  eas : Option String
  cert : Option String
deriving DecidableEq, Repr

/-- Python truthiness of an optional string: `None` and `""` are falsy. -/
def truthyOpt : Option String → Bool
  | some s => !(s = "")
  | none => false

/-- `server_config.get("auth", {}).get("type") == "bearer"`. -/
def authIsBearer (sc : ServerConfig) : Bool :=
  match sc.auth with
  | some a => a.type == some "bearer"
  | none => false

/-- The deferred-resolution auth placeholder written by the loader. -/
def easTokenPlaceholder : String := "$\x7bEAS_TOKEN\x7d"

/-- The repeated source pattern `config["env"] = config.get("env", {});
config["env"][k] = v`: if the config already references an env dict, mutate
that dict in place (visible through every alias); otherwise allocate a fresh
dict at the end of the heap and point the config at it. -/
def injectEnv (ch : ServerConfig × Heap) (k v : String) : ServerConfig × Heap :=
  match ch.1.env with
  | some r => (ch.1, heapSet ch.2 r (envSet (heapGet ch.2 r) k v))
  | none => ({ ch.1 with env := some ch.2.length }, ch.2 ++ [envSet [] k v])

/-- `MCPToolLoader._apply_enterprise_settings` (loader.py lines 42–65).
`config = server_config.copy()` is a shallow copy: the new top-level record
shares the `env` reference with the caller's record.  The proxy injection is
guarded by `"env" not in config`; the auth and cert injections test the
original `server_config` fields and write through the (possibly shared) env
reference. -/
def apply_enterprise_settings (pol : Policy) (server_config : ServerConfig)
    (h : Heap) : ServerConfig × Heap :=
  let config := server_config
  let ch1 :=
    if truthyOpt pol.proxy && config.env.isNone then
      injectEnv (injectEnv (config, h) "HTTP_PROXY" (pol.proxy.getD ""))
        "HTTPS_PROXY" (pol.proxy.getD "")
    else (config, h)
  let ch2 :=
    if truthyOpt pol.eas && authIsBearer server_config then
      injectEnv ch1 "MCP_AUTH_TOKEN" easTokenPlaceholder
    else ch1
  let ch3 :=
    if truthyOpt pol.cert && (server_config.transport == some "streamable-http") then
      injectEnv ch2 "SSL_CERT_FILE" (pol.cert.getD "")
    else ch2
  ch3

/-- The env dict of a derived config, read through its reference. -/
def resultEnv : ServerConfig × Heap → Env
  | (c, h) =>
    match c.env with
    | some r => heapGet h r
    | none => []

/-- Well-formedness of a config/heap pair: the config's env reference, when
present, points into the heap (every Python dict value is a real dict). -/
def envWF (ch : ServerConfig × Heap) : Prop :=
  ∀ r, ch.1.env = some r → r < ch.2.length

/-- Freshness invariant used to track the settings-derivation pipeline when
the input config has no env mapping: relative to the original heap `h₀` and
the watermark `n = h₀.length`, the current config only references cells at or
above the watermark, the heap is at least that long, and every cell below the
watermark still holds its original contents. -/
def FreshInv (h₀ : Heap) (n : Nat) (ch : ServerConfig × Heap) : Prop :=
  (∀ r, ch.1.env = some r → n ≤ r) ∧ n ≤ ch.2.length ∧
    ∀ r, r < n → heapGet ch.2 r = heapGet h₀ r

/-- The server-selection step of `MCPToolLoader.load_tools` (loader.py lines
20–34): return `[]` when no servers are configured; apply the name filter only
when `server_names` is truthy, i.e. a non-empty list (`if server_names:`). -/
def load_tools_selection (servers : List (String × ServerConfig))
    (server_names : Option (List String)) : List (String × ServerConfig) :=
  if servers.isEmpty then []
  else
    match server_names with
    | some names =>
        if names.isEmpty then servers
        else servers.filter (fun p => names.contains p.1)
    | none => servers

/-! ## The tool-invocation agent (`connectchain/tools/mcp/agent.py`)

Exceptions are modelled with `Except` over `PyError`.  All errors modelled
here are `Exception`-derived instances (what the dispatch loop's
`except Exception` catches); `runtimeError` is kept apart because
`MCPToolAgent.invoke` catches exactly `RuntimeError`. -/

/-- A Python exception instance: either a `RuntimeError` or an instance of
some other exception class, each carrying its message (`str(e)`). -/
inductive PyError where
  | runtimeError (msg : String)
  | otherError (cls : String) (msg : String)
deriving DecidableEq, Repr

/-- `str(e)` of an exception. -/
def PyError.str : PyError → String
  | .runtimeError m => m
  | .otherError _ m => m

instance {ε α : Type} [DecidableEq ε] [DecidableEq α] : DecidableEq (Except ε α) :=
  fun a b =>
    match a, b with
    | .ok x, .ok y =>
      if h : x = y then .isTrue (by rw [h]) else .isFalse (fun hc => by cases hc; exact h rfl)
    | .error x, .error y =>
      if h : x = y then .isTrue (by rw [h]) else .isFalse (fun hc => by cases hc; exact h rfl)
    | .ok _, .error _ => .isFalse (fun hc => by cases hc)
    | .error _, .ok _ => .isFalse (fun hc => by cases hc)

/-- Structured tool arguments (an opaque JSON-like mapping). -/
abbrev ToolArgs := List (String × String)

/-- One tool-call request from the model's response.  The source accepts both
a dict shape (`tool_call.get("name")`/`.get("args", {})`) and an object shape
(`.name`/`.args`); both are normalized to this record (spec §9). -/
structure ToolCall where
  name : String
  args : ToolArgs
deriving DecidableEq, Repr

/-- One loaded tool (a `BaseTool`): its name and its async invocation
capability, which either returns a result value or raises. -/
structure MCPTool where
  name : String
  run : ToolArgs → Except PyError String

/-- The model's structured output.  `tool_calls = none` models the
`tool_calls` attribute being absent, `some []` models it being an empty
sequence; `isAIMessage`/`strForm` model the
`response.content if isinstance(response, AIMessage) else str(response)`
branch. -/
structure ModelResponse where
  content : String
  tool_calls : Option (List ToolCall)
  isAIMessage : Bool
  strForm : String
deriving DecidableEq, Repr

/-- One entry of the `results` list: `{"tool": name, "result": value}` or
`{"tool": name, "error": message}`. -/
inductive ToolOutcome where
  | success (tool : String) (result : String)
  | failure (tool : String) (error : String)
deriving DecidableEq, Repr

/-- The tool name of an outcome entry. -/
def ToolOutcome.tool : ToolOutcome → String
  | .success t _ => t
  | .failure t _ => t

/-- The value `ainvoke` produces: either the raw model response (no tool
calls) or the `{"content": ..., "tool_results": ...}` record. -/
inductive AgentResult where
  | raw (response : ModelResponse)
  | wrapped (content : String) (tool_results : List ToolOutcome)
deriving DecidableEq, Repr

/-- The agent: its model id and the registry built by
`self.tools = {tool.name: tool for tool in tools}`. -/
structure MCPToolAgent where
  model_id : String
  tools : String → Option MCPTool

/-- The dict comprehension `{tool.name: tool for tool in tools}`: later
duplicates overwrite earlier ones. -/
def buildTools (tools : List MCPTool) : String → Option MCPTool :=
  tools.foldl (fun m t => fun n => if n = t.name then some t else m n) (fun _ => none)

/-- One iteration body of the dispatch loop for a registered tool:
`await self.tools[tool_name].ainvoke(tool_args)` inside
`try ... except Exception`, producing a result entry or an error entry. -/
def runToolCall (t : MCPTool) (c : ToolCall) : ToolOutcome :=
  match t.run c.args with
  | .ok v => .success c.name v
  | .error e => .failure c.name e.str

/-- The dispatch loop of `ainvoke` (agent.py lines 44–59): iterate the
requested calls in order; a registered tool contributes one entry (result or
error), an unknown name contributes nothing. -/
def dispatchCalls (tools : String → Option MCPTool) : List ToolCall → List ToolOutcome
  | [] => []
  | c :: rest =>
    match tools c.name with
    | some t => runToolCall t c :: dispatchCalls tools rest
    | none => dispatchCalls tools rest

/-- `response.content if isinstance(response, AIMessage) else str(response)`. -/
def contentOf (r : ModelResponse) : String :=
  if r.isAIMessage then r.content else r.strForm

/-- `MCPToolAgent.ainvoke` (agent.py lines 28–64).  `llmResult` is the
behaviour of the external model collaborator for this request: the combined
outcome of `model(self.model_id)`, the optional `bind_tools`, and
`await llm.ainvoke(input_data, config)` — either the model's response or the
exception escaping that phase (which `ainvoke` propagates unmodified). -/
def ainvoke (agent : MCPToolAgent) (llmResult : Except PyError ModelResponse) :
    Except PyError AgentResult :=
  match llmResult with
  | .error e => .error e
  | .ok response =>
    match response.tool_calls with
    | none => .ok (.raw response)
    | some [] => .ok (.raw response)
    | some calls =>
        .ok (.wrapped (contentOf response) (dispatchCalls agent.tools calls))

/-- The message of the `RuntimeError` that `asyncio.run` raises when called
from a running event loop. -/
def nestedLoopMsg : String :=
  "asyncio.run() cannot be called from a running event loop"

/-- The message of the `RuntimeError` that `MCPToolAgent.invoke` raises. -/
def invokeFailedMsg : String :=
  "MCPToolAgent.invoke() failed. If you are running from within an event loop (e.g., in a web server or async application), please use the async ainvoke() method with await instead."

/-- `MCPToolAgent.invoke` (agent.py lines 66–80): run `ainvoke` to completion
via `asyncio.run` (which itself raises `RuntimeError` when a loop is already
running, modelled by `inEventLoop`) and re-raise any `RuntimeError` as the
single "use the async ainvoke" `RuntimeError`. -/
def invoke (agent : MCPToolAgent) (inEventLoop : Bool)
    (llmResult : Except PyError ModelResponse) : Except PyError AgentResult :=
  let runResult :=
    if inEventLoop then .error (.runtimeError nestedLoopMsg)
    else ainvoke agent llmResult
  match runResult with
  | .error (.runtimeError _) => .error (.runtimeError invokeFailedMsg)
  | r => r

/-! ## Model acquisition (`connectchain/lcel/model.py`) -/

/-- The global `config.eas` section, restricted to the field the decision
reads: `id_key` (`none` models the attribute being absent or `None`; `""` is
falsy). -/
structure EASConfig where
  id_key : Option String
deriving DecidableEq, Repr

/-- The global configuration as far as the enterprise-auth decision reads it:
`config.eas` (`none` models the attribute being absent or falsy). -/
structure GlobalConfig where
  eas : Option EASConfig
deriving DecidableEq, Repr

/-- One configured model slot, restricted to the fields the decision reads:
`provider` and `bypass_eas` (`getattr(model_config, 'bypass_eas', False)` — an
absent attribute behaves as `false`). -/
structure ModelConfigEntry where
  provider : String
  bypass_eas : Bool
deriving DecidableEq, Repr

/-- The enterprise-auth decision of `_get_model_` (model.py lines 48–63):
`needs_eas` is set when EAS is configured with a truthy `id_key` and the model
config does not bypass it, and is then forced to `False` for every provider
other than the literal `"openai"`. -/
def needs_eas (config : GlobalConfig) (model_config : ModelConfigEntry) : Bool :=
  let flag :=
    match config.eas with
    | some e => truthyOpt e.id_key && !model_config.bypass_eas
    | none => false
  if model_config.provider ≠ "openai" then false else flag

/-- Which acquisition path `_get_model_` takes (model.py lines 65–70). -/
inductive AcquisitionPath where
  | enterprise
  | direct
deriving DecidableEq, Repr

/-- The path selection of `_get_model_`: `_get_openai_model_` when
`needs_eas`, else `_get_direct_model_`. -/
def acquisition_path (config : GlobalConfig) (model_config : ModelConfigEntry) :
    AcquisitionPath :=
  if needs_eas config model_config then .enterprise else .direct

/-! ## The enterprise session cache (`_get_openai_model_`, model.py 91–107)

`SessionMap`, `get_token_from_env` and the client constructors are external
collaborators whose sources are not part of this snapshot; they are modelled
from the spec.  Clients are abstracted as numeric identifiers. -/

/-- The process-wide state the acquisition reads and writes: `os.environ`
(token per fingerprint) and the `SessionMap` storage (client plus issue
timestamp per fingerprint). -/
structure EASState where
  environ : String → Option String
  sessions : String → Option (Nat × Nat)

/-- Modelled from the spec: `SessionMap.is_expired` (the `SessionMap` source
is not in this snapshot).  Per §3/§4.4 an entry is fresh iff the elapsed time
since issuance is below the refresh interval; a missing entry is expired. -/
def is_expired (sessions : String → Option (Nat × Nat))
    (token_refresh_interval now : Nat) (key : String) : Bool :=
  match sessions key with
  | some entry => token_refresh_interval ≤ now - entry.2
  | none => true

/-- The outcome of one acquisition: the returned client (`none` would mean a
cache hit with no stored client, which reachable states exclude), the updated
process state, and how many times `get_token_from_env` was called. -/
structure AcquireResult where
  client : Option Nat
  state : EASState
  tokenFetches : Nat

/-- `_get_openai_model_` (model.py lines 91–107).  `key` is the deterministic
fingerprint `SessionMap.uuid_from_config(config, model_config)`;
`fetched_token` is what the external `get_token_from_env` collaborator would
return; `fresh_client` abstracts the `ChatOpenAI`/`AzureOpenAI` instance that
would be constructed on the refresh path.  `SessionMap.new_session` and
`SessionMap.get_llm` are modelled from the spec (store/retrieve the client
under the fingerprint; `new_session` stamps the current time). -/
def _get_openai_model_ (key : String) (token_refresh_interval now : Nat)
    (fetched_token : String) (fresh_client : Nat) (s : EASState) : AcquireResult :=
  let auth_token := s.environ key
  if auth_token.isNone || is_expired s.sessions token_refresh_interval now key then
    { client := some fresh_client
      state :=
        { environ := fun k => if k = key then some fetched_token else s.environ k
          sessions := fun k => if k = key then some (fresh_client, now) else s.sessions k }
      tokenFetches := 1 }
  else
    { client := (s.sessions key).map Prod.fst
      state := s
      tokenFetches := 0 }

/-- Consistency of the process state at a fingerprint: whenever the session
cache holds an entry, `os.environ` holds a token for the same fingerprint
(both are written together on the refresh path, and only there). -/
def envTokenConsistent (s : EASState) (key : String) : Prop :=
  ∀ c t, s.sessions key = some (c, t) → s.environ key ≠ none

/-! ## Concrete fixtures (used by witnesses and counterexamples) -/

/-- A tool that succeeds with `"10"`. -/
def toolAdd : MCPTool := { name := "add", run := fun _ => .ok "10" }

/-- A tool whose capability raises a (non-`RuntimeError`) exception. -/
def toolBoom : MCPTool :=
  { name := "boom", run := fun _ => .error (.otherError "ValueError" "Tool failed") }

/-- A tool that succeeds with `"20"`. -/
def toolMul : MCPTool := { name := "multiply", run := fun _ => .ok "20" }

/-- A tool whose capability raises a `RuntimeError`. -/
def toolRte : MCPTool :=
  { name := "rte", run := fun _ => .error (.runtimeError "nested runtime failure") }

/-- An agent over the four fixture tools. -/
def agentFix : MCPToolAgent :=
  { model_id := "1", tools := buildTools [toolAdd, toolBoom, toolMul, toolRte] }

/-- A model response carrying no tool-call requests. -/
def respNoCalls : ModelResponse :=
  { content := "The answer is 42", tool_calls := none, isAIMessage := true,
    strForm := "AIMessage(The answer is 42)" }

/-- A model response requesting `add` (succeeds), `boom` (fails), `multiply`
(succeeds), in that order. -/
def respABC : ModelResponse :=
  { content := "working", tool_calls := some [⟨"add", []⟩, ⟨"boom", []⟩, ⟨"multiply", []⟩],
    isAIMessage := true, strForm := "AIMessage(working)" }

/-- A model response requesting an unregistered tool and then `add`. -/
def respGhost : ModelResponse :=
  { content := "ghost", tool_calls := some [⟨"ghost", []⟩, ⟨"add", []⟩],
    isAIMessage := true, strForm := "AIMessage(ghost)" }

/-- A model response requesting only the `RuntimeError`-raising tool. -/
def respRte : ModelResponse :=
  { content := "rte", tool_calls := some [⟨"rte", []⟩], isAIMessage := true,
    strForm := "AIMessage(rte)" }

/-- A process state whose session cache holds client `7` issued at time `100`
under fingerprint `"fp"`, with a matching environ token. -/
def stateFix : EASState :=
  { environ := fun k => if k = "fp" then some "tok0" else none,
    sessions := fun k => if k = "fp" then some (7, 100) else none }

/-! ## Helper lemmas: env dictionaries and the heap -/

theorem envLookup_envSet_self (e : Env) (k v : String) :
    envLookup (envSet e k v) k = some v := by
  induction e with
  | nil => simp [envSet, envLookup]
  | cons p rest ih =>
    by_cases hp : p.1 = k
    · simp [envSet, envLookup, hp]
    · simp [envSet, envLookup, hp, ih]

theorem envLookup_envSet_ne (e : Env) (k v k' : String) (hne : k' ≠ k) :
    envLookup (envSet e k v) k' = envLookup e k' := by
  induction e with
  | nil => simp [envSet, envLookup, Ne.symm hne]
  | cons p rest ih =>
    by_cases hp : p.1 = k
    · simp [envSet, envLookup, hp, Ne.symm hne]
    · simp [envSet, envLookup, hp, ih]

theorem heapGet_heapSet_self (h : Heap) (r : Nat) (e : Env) (hr : r < h.length) :
    heapGet (heapSet h r e) r = e := by
  simp [heapGet, heapSet, List.getD_eq_getElem?_getD, List.getElem?_set_self hr]

theorem heapGet_heapSet_ne (h : Heap) (r r' : Nat) (e : Env) (hne : r ≠ r') :
    heapGet (heapSet h r e) r' = heapGet h r' := by
  simp [heapGet, heapSet, List.getD_eq_getElem?_getD, List.getElem?_set_ne hne]

theorem heapGet_append_lt (h l : Heap) (r : Nat) (hr : r < h.length) :
    heapGet (h ++ l) r = heapGet h r := by
  simp [heapGet, List.getD_eq_getElem?_getD, List.getElem?_append_left hr]

theorem heapGet_append_self (h : Heap) (e : Env) :
    heapGet (h ++ [e]) h.length = e := by
  simp [heapGet, List.getD_eq_getElem?_getD, List.getElem?_concat_length]

/-! ## Helper lemmas: `injectEnv` -/

theorem envWF_injectEnv (ch : ServerConfig × Heap) (k v : String)
    (hwf : envWF ch) : envWF (injectEnv ch k v) := by
  obtain ⟨c, h⟩ := ch
  intro r hr
  cases hc : c.env with
  | some r0 =>
    simp only [injectEnv, hc] at hr ⊢
    cases hr
    simpa [heapSet] using hwf _ hc
  | none =>
    simp only [injectEnv, hc] at hr ⊢
    cases hr
    simp

theorem envWF_ite' (cond : Bool) (a b : ServerConfig × Heap)
    (ha : envWF a) (hb : envWF b) : envWF (if cond then a else b) := by
  cases cond
  · simpa using hb
  · simpa using ha

theorem resultEnv_injectEnv_self (ch : ServerConfig × Heap) (k v : String)
    (hwf : envWF ch) :
    envLookup (resultEnv (injectEnv ch k v)) k = some v := by
  obtain ⟨c, h⟩ := ch
  cases hc : c.env with
  | some r0 =>
    have hr0 : r0 < h.length := hwf r0 hc
    simp [injectEnv, resultEnv, hc, heapGet_heapSet_self h r0 _ hr0,
      envLookup_envSet_self]
  | none =>
    simp [injectEnv, resultEnv, hc, heapGet_append_self, envLookup_envSet_self]

theorem resultEnv_injectEnv_ne (ch : ServerConfig × Heap) (k v k' : String)
    (hwf : envWF ch) (hne : k' ≠ k) :
    envLookup (resultEnv (injectEnv ch k v)) k' = envLookup (resultEnv ch) k' := by
  obtain ⟨c, h⟩ := ch
  cases hc : c.env with
  | some r0 =>
    have hr0 : r0 < h.length := hwf r0 hc
    simp [injectEnv, resultEnv, hc, heapGet_heapSet_self h r0 _ hr0,
      envLookup_envSet_ne _ _ _ _ hne]
  | none =>
    simp [injectEnv, resultEnv, hc, heapGet_append_self,
      envLookup_envSet_ne _ _ _ _ hne, envLookup]

theorem resultEnv_iteInject_ne (cond : Bool) (ch : ServerConfig × Heap)
    (k v k' : String) (hwf : envWF ch) (hne : k' ≠ k) :
    envLookup (resultEnv (if cond then injectEnv ch k v else ch)) k' =
      envLookup (resultEnv ch) k' := by
  cases cond
  · simp
  · simpa using resultEnv_injectEnv_ne ch k v k' hwf hne

theorem freshInv_injectEnv (h₀ : Heap) (n : Nat) (ch : ServerConfig × Heap)
    (k v : String) (hi : FreshInv h₀ n ch) : FreshInv h₀ n (injectEnv ch k v) := by
  obtain ⟨c, h⟩ := ch
  obtain ⟨h1, h2, h3⟩ := hi
  dsimp only at h1 h2 h3
  cases hc : c.env with
  | some r0 =>
    have hr0 : n ≤ r0 := h1 r0 hc
    simp only [injectEnv, hc]
    refine ⟨?_, ?_, ?_⟩
    · intro r hr
      exact h1 r hr
    · simpa [heapSet] using h2
    · intro r hr
      rw [heapGet_heapSet_ne h r0 r _ (by omega)]
      exact h3 r hr
  | none =>
    simp only [injectEnv, hc]
    refine ⟨?_, ?_, ?_⟩
    · intro r hr
      simp only at hr
      cases hr
      simpa using h2
    · simp only [List.length_append, List.length_cons, List.length_nil]
      omega
    · intro r hr
      rw [heapGet_append_lt h _ r (by omega)]
      exact h3 r hr

theorem freshInv_ite' (h₀ : Heap) (n : Nat) (cond : Bool)
    (a b : ServerConfig × Heap) (ha : FreshInv h₀ n a) (hb : FreshInv h₀ n b) :
    FreshInv h₀ n (if cond then a else b) := by
  cases cond
  · simpa using hb
  · simpa using ha

theorem apply_enterprise_settings_fresh (pol : Policy) (sc : ServerConfig)
    (h : Heap) (henv : sc.env = none) :
    FreshInv h h.length (apply_enterprise_settings pol sc h) := by
  have base : FreshInv h h.length (sc, h) := by
    refine ⟨?_, le_refl _, fun r _ => rfl⟩
    intro r hr
    rw [henv] at hr
    cases hr
  simp only [apply_enterprise_settings]
  exact freshInv_ite' _ _ _ _ _
    (freshInv_injectEnv _ _ _ _ _
      (freshInv_ite' _ _ _ _ _
        (freshInv_injectEnv _ _ _ _ _
          (freshInv_ite' _ _ _ _ _
            (freshInv_injectEnv _ _ _ _ _ (freshInv_injectEnv _ _ _ _ _ base))
            base))
        (freshInv_ite' _ _ _ _ _
          (freshInv_injectEnv _ _ _ _ _ (freshInv_injectEnv _ _ _ _ _ base))
          base)))
    (freshInv_ite' _ _ _ _ _
      (freshInv_injectEnv _ _ _ _ _
        (freshInv_ite' _ _ _ _ _
          (freshInv_injectEnv _ _ _ _ _ (freshInv_injectEnv _ _ _ _ _ base))
          base))
      (freshInv_ite' _ _ _ _ _
        (freshInv_injectEnv _ _ _ _ _ (freshInv_injectEnv _ _ _ _ _ base))
        base))

theorem truthyOpt_eq_some (o : Option String) (h : truthyOpt o = true) :
    o = some (o.getD "") := by
  cases o <;> simp_all [truthyOpt]

/-! ## Claim C1: the three env injections of settings derivation -/

/-- C1 counterexample: the claim asserts the proxy injection is unconditional
on the policy's proxy (and independent of any pre-existing env mapping), but
with a server config that already carries an `env` mapping the code's
`"env" not in config` guard suppresses the proxy injection entirely: the
derived config's env has no `HTTP_PROXY` although the policy supplies a
proxy. -/
theorem C1_counterexample :
    envLookup
      (resultEnv (apply_enterprise_settings
        { proxy := some "http://p:8080", eas := none, cert := none }
        { transport := some "stdio", auth := none, env := some 0 } [[]]))
      "HTTP_PROXY" = none := by decide

/-- C1 (amended): for every server config and policy, in the derived config:
the proxy injection sets `HTTP_PROXY`/`HTTPS_PROXY` to the policy's proxy URL
*provided the input config has no pre-existing env mapping*; if enterprise
auth is active and the config's `auth.type` is `"bearer"`, `MCP_AUTH_TOKEN` is
the deferred placeholder; if the policy supplies a trust-cert path and the
transport is `"streamable-http"`, `SSL_CERT_FILE` is that path.  The auth and
cert injections are independent of each other, of the proxy injection and of
any pre-existing env mapping; the proxy injection is additionally conditional
on the absence of a pre-existing env mapping. -/
theorem C1_theorem (pol : Policy) (sc : ServerConfig) (h : Heap)
    (hwf : envWF (sc, h)) :
    (truthyOpt pol.proxy = true → sc.env = none →
        envLookup (resultEnv (apply_enterprise_settings pol sc h)) "HTTP_PROXY" =
          pol.proxy ∧
        envLookup (resultEnv (apply_enterprise_settings pol sc h)) "HTTPS_PROXY" =
          pol.proxy) ∧
    (truthyOpt pol.eas = true → authIsBearer sc = true →
        envLookup (resultEnv (apply_enterprise_settings pol sc h)) "MCP_AUTH_TOKEN" =
          some easTokenPlaceholder) ∧
    (truthyOpt pol.cert = true → sc.transport = some "streamable-http" →
        envLookup (resultEnv (apply_enterprise_settings pol sc h)) "SSL_CERT_FILE" =
          pol.cert) := by
  have hwf1 : envWF (if truthyOpt pol.proxy && sc.env.isNone then
      injectEnv (injectEnv (sc, h) "HTTP_PROXY" (pol.proxy.getD ""))
        "HTTPS_PROXY" (pol.proxy.getD "")
    else (sc, h)) :=
    envWF_ite' _ _ _ (envWF_injectEnv _ _ _ (envWF_injectEnv _ _ _ hwf)) hwf
  refine ⟨?_, ?_, ?_⟩
  · intro hproxy henv
    have hc1 : (truthyOpt pol.proxy && sc.env.isNone) = true := by
      simp [hproxy, henv]
    have hwfP : envWF (injectEnv (injectEnv (sc, h) "HTTP_PROXY" (pol.proxy.getD ""))
        "HTTPS_PROXY" (pol.proxy.getD "")) :=
      envWF_injectEnv _ _ _ (envWF_injectEnv _ _ _ hwf)
    simp only [apply_enterprise_settings, hc1, if_true]
    constructor
    · rw [resultEnv_iteInject_ne _ _ _ _ _
          (envWF_ite' _ _ _ (envWF_injectEnv _ _ _ hwfP) hwfP) (by decide),
        resultEnv_iteInject_ne _ _ _ _ _ hwfP (by decide),
        resultEnv_injectEnv_ne _ _ _ _ (envWF_injectEnv _ _ _ hwf) (by decide),
        resultEnv_injectEnv_self _ _ _ hwf]
      exact (truthyOpt_eq_some pol.proxy hproxy).symm
    · rw [resultEnv_iteInject_ne _ _ _ _ _
          (envWF_ite' _ _ _ (envWF_injectEnv _ _ _ hwfP) hwfP) (by decide),
        resultEnv_iteInject_ne _ _ _ _ _ hwfP (by decide),
        resultEnv_injectEnv_self _ _ _ (envWF_injectEnv _ _ _ hwf)]
      exact (truthyOpt_eq_some pol.proxy hproxy).symm
  · intro heas hbearer
    have hc2 : (truthyOpt pol.eas && authIsBearer sc) = true := by
      simp [heas, hbearer]
    simp only [apply_enterprise_settings, hc2, if_true]
    rw [resultEnv_iteInject_ne _ _ _ _ _ (envWF_injectEnv _ _ _ hwf1) (by decide),
      resultEnv_injectEnv_self _ _ _ hwf1]
  · intro hcert htrans
    have hc3 : (truthyOpt pol.cert && (sc.transport == some "streamable-http")) = true := by
      simp [hcert, htrans]
    simp only [apply_enterprise_settings, hc3, if_true]
    rw [resultEnv_injectEnv_self _ _ _
      (envWF_ite' _ _ _ (envWF_injectEnv _ _ _ hwf1) hwf1)]
    exact (truthyOpt_eq_some pol.cert hcert).symm

/-- C1 witness: with policy `{proxy, eas, cert}` all supplied, transport
`"streamable-http"`, bearer auth and no pre-existing env, all three
injections land. -/
theorem C1_witness :
    envWF ({ transport := some "streamable-http", auth := some ({ type := some "bearer" }), env := none }, ([] : Heap)) ∧
    truthyOpt (some "http://p:8080") = true ∧
    (envLookup (resultEnv (apply_enterprise_settings { proxy := some "http://p:8080", eas := some "https://eas.company.com", cert := some "/c.pem" } { transport := some "streamable-http", auth := some ({ type := some "bearer" }), env := none } [])) "HTTP_PROXY" = some "http://p:8080" ∧
      envLookup (resultEnv (apply_enterprise_settings { proxy := some "http://p:8080", eas := some "https://eas.company.com", cert := some "/c.pem" } { transport := some "streamable-http", auth := some ({ type := some "bearer" }), env := none } [])) "MCP_AUTH_TOKEN" = some easTokenPlaceholder ∧
      envLookup (resultEnv (apply_enterprise_settings { proxy := some "http://p:8080", eas := some "https://eas.company.com", cert := some "/c.pem" } { transport := some "streamable-http", auth := some ({ type := some "bearer" }), env := none } [])) "SSL_CERT_FILE" = some "/c.pem") := by
  have hwf : envWF ({ transport := some "streamable-http", auth := some ({ type := some "bearer" }), env := none }, ([] : Heap)) := by
    intro r hr
    exact Option.noConfusion hr
  have h := C1_theorem { proxy := some "http://p:8080", eas := some "https://eas.company.com", cert := some "/c.pem" } { transport := some "streamable-http", auth := some ({ type := some "bearer" }), env := none } [] hwf
  exact ⟨hwf, by decide,
    (h.1 (by decide) rfl).1,
    h.2.1 (by decide) (by decide),
    h.2.2 (by decide) rfl⟩

/-! ## Claim C2: settings derivation and caller-owned storage -/

/-- C2 counterexample: the claim asserts `derive` deep-copies and never
mutates the caller's structures, but the code's `server_config.copy()` is a
shallow copy: with a pre-existing env mapping `{"X": "1"}` and an active
bearer-auth injection, the auth placeholder is written through the shared
reference into the caller-owned env dict (heap cell 0). -/
theorem C2_counterexample :
    heapGet (apply_enterprise_settings
      { proxy := none, eas := some "https://eas.company.com", cert := none }
      { transport := some "stdio", auth := some ({ type := some "bearer" }), env := some 0 }
      [[("X", "1")]]).2 0 =
      [("X", "1"), ("MCP_AUTH_TOKEN", easTokenPlaceholder)] := by decide

/-- C2 (amended): settings derivation returns a shallow copy.  The caller's
pre-existing storage is left completely unchanged whenever the input config
has no env mapping (fresh storage is allocated for any injection), and also
whenever neither the auth nor the cert injection applies; only when the input
carries an env mapping and the auth or cert injection fires is the injected
entry written into the caller's (shared) env storage. -/
theorem C2_theorem (pol : Policy) (sc : ServerConfig) (h : Heap)
    (hside : sc.env = none ∨
      ((truthyOpt pol.eas && authIsBearer sc) = false ∧
       (truthyOpt pol.cert && (sc.transport == some "streamable-http")) = false))
    (r : Nat) (hr : r < h.length) :
    heapGet (apply_enterprise_settings pol sc h).2 r = heapGet h r := by
  cases hsc : sc.env with
  | none => exact (apply_enterprise_settings_fresh pol sc h hsc).2.2 r hr
  | some r0 =>
    rcases hside with henv | ⟨hauth, hcert⟩
    · rw [hsc] at henv
      cases henv
    · simp [apply_enterprise_settings, hauth, hcert, hsc]

/-- C2 witness: with no pre-existing env mapping on the input config, a
pre-existing heap cell is untouched by a derivation that performs all three
injections. -/
theorem C2_witness :
    0 < ([[("K", "V")]] : Heap).length ∧
    heapGet (apply_enterprise_settings
      { proxy := some "http://p:8080", eas := some "https://eas.company.com",
        cert := some "/c.pem" }
      { transport := some "streamable-http", auth := some ({ type := some "bearer" }),
        env := none }
      [[("K", "V")]]).2 0 = heapGet [[("K", "V")]] 0 :=
  ⟨by decide,
    C2_theorem
      { proxy := some "http://p:8080", eas := some "https://eas.company.com",
        cert := some "/c.pem" }
      { transport := some "streamable-http", auth := some ({ type := some "bearer" }),
        env := none }
      [[("K", "V")]] (Or.inl rfl) 0 (by decide)⟩

/-! ## Helper lemmas: the dispatch loop -/

theorem runToolCall_tool (t : MCPTool) (c : ToolCall) :
    (runToolCall t c).tool = c.name := by
  unfold runToolCall
  cases t.run c.args <;> rfl

theorem dispatchCalls_eq_filterMap (tools : String → Option MCPTool)
    (calls : List ToolCall) :
    dispatchCalls tools calls =
      calls.filterMap (fun c => (tools c.name).map (fun t => runToolCall t c)) := by
  induction calls with
  | nil => rfl
  | cons c rest ih => cases hc : tools c.name <;> simp [dispatchCalls, hc, ih]

theorem dispatchCalls_append (tools : String → Option MCPTool)
    (l1 l2 : List ToolCall) :
    dispatchCalls tools (l1 ++ l2) =
      dispatchCalls tools l1 ++ dispatchCalls tools l2 := by
  induction l1 with
  | nil => rfl
  | cons c rest ih => cases hc : tools c.name <;> simp [dispatchCalls, hc, ih]

theorem dispatchCalls_map_tool (tools : String → Option MCPTool)
    (calls : List ToolCall) :
    (dispatchCalls tools calls).map ToolOutcome.tool =
      (calls.filter (fun c => (tools c.name).isSome)).map ToolCall.name := by
  induction calls with
  | nil => rfl
  | cons c rest ih =>
    cases hc : tools c.name with
    | some t => simp [dispatchCalls, hc, ih, runToolCall_tool, List.filter_cons]
    | none => simp [dispatchCalls, hc, ih, List.filter_cons]

/-! ## Claim C3: one ordered entry per registered requested call -/

/-- C3: for every model response carrying a non-empty tool-call sequence, the
returned record's `tool_results` is exactly the requested sequence filtered to
registered names and mapped to per-call outcomes (`List.filterMap` — hence one
entry per registered call, in the request order, unknown names omitted); in
particular the outcome tool names are the registered request names in request
order. -/
theorem C3_theorem (agent : MCPToolAgent) (resp : ModelResponse)
    (calls : List ToolCall) (hcalls : resp.tool_calls = some calls)
    (hne : calls ≠ []) :
    ainvoke agent (.ok resp) =
      .ok (.wrapped (contentOf resp)
        (calls.filterMap (fun c => (agent.tools c.name).map (fun t => runToolCall t c)))) ∧
    (dispatchCalls agent.tools calls).map ToolOutcome.tool =
      (calls.filter (fun c => (agent.tools c.name).isSome)).map ToolCall.name := by
  constructor
  · cases calls with
    | nil => exact absurd rfl hne
    | cons c rest => simp [ainvoke, hcalls, dispatchCalls_eq_filterMap]
  · exact dispatchCalls_map_tool _ _

/-- C3 witness: three registered calls (success, failure, success) produce
three outcomes in request order. -/
theorem C3_witness :
    respABC.tool_calls = some [⟨"add", []⟩, ⟨"boom", []⟩, ⟨"multiply", []⟩] ∧
    ainvoke agentFix (.ok respABC) =
      .ok (.wrapped "working"
        [.success "add" "10", .failure "boom" "Tool failed", .success "multiply" "20"]) :=
  ⟨rfl,
    ((C3_theorem agentFix respABC [⟨"add", []⟩, ⟨"boom", []⟩, ⟨"multiply", []⟩]
      rfl (by decide)).1).trans (by decide)⟩

/-! ## Claim C4: partial-failure independence -/

/-- C4: a failing call in the middle of a dispatched sequence contributes
exactly one `{tool, error}` entry; the entries for the calls before it are
exactly the dispatch of the prefix (unchanged), and the calls after it are
still dispatched exactly as they would be on their own. -/
theorem C4_theorem (agent : MCPToolAgent) (pre post : List ToolCall)
    (c : ToolCall) (t : MCPTool) (e : PyError)
    (ht : agent.tools c.name = some t) (he : t.run c.args = .error e) :
    dispatchCalls agent.tools (pre ++ c :: post) =
      dispatchCalls agent.tools pre ++
        ToolOutcome.failure c.name e.str :: dispatchCalls agent.tools post := by
  rw [dispatchCalls_append]
  simp [dispatchCalls, ht, runToolCall, he]

/-- C4 witness: for `[add (succeeds), boom (fails), multiply (succeeds)]` the
results are `[{add, 10}, {boom, error}, {multiply, 20}]`. -/
theorem C4_witness :
    agentFix.tools "boom" = some toolBoom ∧
    toolBoom.run [] = .error (.otherError "ValueError" "Tool failed") ∧
    dispatchCalls agentFix.tools [⟨"add", []⟩, ⟨"boom", []⟩, ⟨"multiply", []⟩] =
      [.success "add" "10", .failure "boom" "Tool failed", .success "multiply" "20"] :=
  ⟨rfl, rfl,
    (C4_theorem agentFix [⟨"add", []⟩] [⟨"multiply", []⟩] ⟨"boom", []⟩ toolBoom
      (.otherError "ValueError" "Tool failed") rfl rfl).trans (by decide)⟩

/-! ## Claim C5: no-tool-call passthrough vs. wrapped record -/

/-- C5: when the response carries no tool-call requests (attribute absent or
empty sequence) `ainvoke` returns the raw response object; when it carries at
least one request, `ainvoke` returns the `{content, tool_results}` record; the
two shapes are distinct, so callers can tell the cases apart. -/
theorem C5_theorem (agent : MCPToolAgent) (resp : ModelResponse) :
    ((resp.tool_calls = none ∨ resp.tool_calls = some []) →
      ainvoke agent (.ok resp) = .ok (.raw resp)) ∧
    (∀ c cs, resp.tool_calls = some (c :: cs) →
      ainvoke agent (.ok resp) =
        .ok (.wrapped (contentOf resp) (dispatchCalls agent.tools (c :: cs)))) ∧
    (∀ r content results,
      AgentResult.raw r ≠ AgentResult.wrapped content results) := by
  refine ⟨?_, ?_, ?_⟩
  · rintro (h | h) <;> simp [ainvoke, h]
  · intro c cs h
    simp [ainvoke, h]
  · intro r content results hcon
    cases hcon

/-- C5 witness: a response with no `tool_calls` attribute passes through
raw; the three-call response comes back wrapped. -/
theorem C5_witness :
    (respNoCalls.tool_calls = none ∨ respNoCalls.tool_calls = some []) ∧
    ainvoke agentFix (.ok respNoCalls) = .ok (.raw respNoCalls) ∧
    ainvoke agentFix (.ok respABC) =
      .ok (.wrapped (contentOf respABC)
        (dispatchCalls agentFix.tools [⟨"add", []⟩, ⟨"boom", []⟩, ⟨"multiply", []⟩])) :=
  ⟨Or.inl rfl, (C5_theorem agentFix respNoCalls).1 (Or.inl rfl),
    (C5_theorem agentFix respABC).2.1 ⟨"add", []⟩ [⟨"boom", []⟩, ⟨"multiply", []⟩] rfl⟩

/-! ## Claim C6: unknown tool names are silently skipped -/

/-- C6: a requested call whose name is not a key of the registry contributes
no entry to the results, and the remaining calls are dispatched exactly as if
the unknown call were absent; the dispatch loop is a total function, so no
error is raised. -/
theorem C6_theorem (agent : MCPToolAgent) (c : ToolCall) (rest : List ToolCall)
    (hc : agent.tools c.name = none) :
    dispatchCalls agent.tools (c :: rest) = dispatchCalls agent.tools rest := by
  simp [dispatchCalls, hc]

/-- C6 witness: the unregistered `ghost` call contributes nothing and `add`
still runs. -/
theorem C6_witness :
    agentFix.tools "ghost" = none ∧
    dispatchCalls agentFix.tools [⟨"ghost", []⟩, ⟨"add", []⟩] = [.success "add" "10"] :=
  ⟨rfl,
    (C6_theorem agentFix ⟨"ghost", []⟩ [⟨"add", []⟩] rfl).trans (by decide)⟩

/-! ## Claim C7: the enterprise-auth decision -/

/-- C7: acquisition takes the enterprise-auth path iff the provider is exactly
`"openai"`, the bypass flag is not set, and an enterprise-auth identity key is
configured (truthy) at the global level; in every other situation the direct
path is taken. -/
theorem C7_theorem (config : GlobalConfig) (model_config : ModelConfigEntry) :
    acquisition_path config model_config = .enterprise ↔
      (model_config.provider = "openai" ∧ model_config.bypass_eas = false ∧
        ∃ e k, config.eas = some e ∧ e.id_key = some k ∧ k ≠ "") := by
  unfold acquisition_path needs_eas
  by_cases hp : model_config.provider = "openai"
  · cases hce : config.eas with
    | none => simp [hp, hce]
    | some e =>
      cases hk : e.id_key with
      | none => simp [hp, hce, hk, truthyOpt]
      | some k =>
        by_cases hkk : k = ""
        · simp [hp, hce, hk, hkk, truthyOpt]
        · cases hb : model_config.bypass_eas <;>
            simp [hp, hce, hk, hkk, hb, truthyOpt]
  · simp [hp]

/-! ## Claim C8: the enterprise session cache -/

/-- The acquisition preserves the environ/session consistency at the
fingerprint (both stores are written together on the refresh path). -/
theorem envTokenConsistent_preserved (key : String) (ri now : Nat)
    (tok : String) (fc : Nat) (s : EASState) (h : envTokenConsistent s key) :
    envTokenConsistent (_get_openai_model_ key ri now tok fc s).state key := by
  cases hcond : ((s.environ key).isNone || is_expired s.sessions ri now key) with
  | true =>
    intro c t hct
    simp [_get_openai_model_, hcond]
  | false =>
    intro c t hct
    simp only [_get_openai_model_, hcond] at hct ⊢
    exact h c t (by simpa using hct)

/-- C8: under the environ/session consistency invariant, an acquisition with a
cached entry younger than the refresh interval returns that cached client,
calls the token-fetch collaborator zero times and leaves the state unchanged
(so an expired entry is never returned); with the entry absent or expired it
calls the token-fetch collaborator exactly once, returns the freshly
constructed client and stores it under the fingerprint with a fresh timestamp
and a fresh environ token. -/
theorem C8_theorem (key : String) (ri now : Nat) (tok : String) (fc : Nat)
    (s : EASState) (hcons : envTokenConsistent s key) :
    (∀ c issued, s.sessions key = some (c, issued) → now - issued < ri →
      (_get_openai_model_ key ri now tok fc s).client = some c ∧
      (_get_openai_model_ key ri now tok fc s).tokenFetches = 0 ∧
      (_get_openai_model_ key ri now tok fc s).state = s) ∧
    ((s.sessions key = none ∨ is_expired s.sessions ri now key = true) →
      (_get_openai_model_ key ri now tok fc s).tokenFetches = 1 ∧
      (_get_openai_model_ key ri now tok fc s).client = some fc ∧
      (_get_openai_model_ key ri now tok fc s).state.sessions key = some (fc, now) ∧
      (_get_openai_model_ key ri now tok fc s).state.environ key = some tok) := by
  constructor
  · intro c issued hsess hfresh
    have henv : s.environ key ≠ none := hcons c issued hsess
    have hexp : is_expired s.sessions ri now key = false := by
      simp only [is_expired, hsess]
      simp
      omega
    have hnone : (s.environ key).isNone = false := by
      cases he : s.environ key with
      | none => exact absurd he henv
      | some _ => rfl
    simp [_get_openai_model_, hnone, hexp, hsess]
  · intro hmiss
    have hcond : ((s.environ key).isNone || is_expired s.sessions ri now key) = true := by
      rcases hmiss with h | h
      · simp [is_expired, h]
      · simp [h]
    simp [_get_openai_model_, hcond]

/-- C8 witness: with the fixture state (client `7` issued at `100`), a lookup
at time `150` with refresh interval `100` is a cache hit: the cached client is
returned with zero token fetches; at time `250` the entry is expired and one
re-authentication stores the fresh client `9` with timestamp `250`. -/
theorem C8_witness :
    stateFix.sessions "fp" = some (7, 100) ∧ (150 - 100 < 100) ∧
    (_get_openai_model_ "fp" 100 150 "tok1" 9 stateFix).client = some 7 ∧
    (_get_openai_model_ "fp" 100 150 "tok1" 9 stateFix).tokenFetches = 0 ∧
    is_expired stateFix.sessions 100 250 "fp" = true ∧
    (_get_openai_model_ "fp" 100 250 "tok1" 9 stateFix).tokenFetches = 1 ∧
    (_get_openai_model_ "fp" 100 250 "tok1" 9 stateFix).state.sessions "fp" =
      some (9, 250) := by
  have hcons : envTokenConsistent stateFix "fp" := by
    intro c t hct
    simp [stateFix]
  have hhit := ( C8_theorem "fp" 100 150 "tok1" 9 stateFix hcons).1 7 100 rfl (by decide)
  have hmiss := ( C8_theorem "fp" 100 250 "tok1" 9 stateFix hcons).2 (Or.inr (by decide))
  exact ⟨rfl, by decide, hhit.1, hhit.2.1, by decide, hmiss.1, hmiss.2.2.1⟩

/-! ## Claim C9: an empty server-name filter loads everything -/

/-- C9: `load_tools` with an empty list as the server-name filter behaves
exactly like a call with no filter: the selected server map is the full
configured map (the filter is applied only when the given collection is
non-empty, because `if server_names:` is a truthiness test). -/
theorem C9_theorem (servers : List (String × ServerConfig)) :
    load_tools_selection servers (some []) = servers ∧
    load_tools_selection servers none = servers := by
  constructor <;> (unfold load_tools_selection; cases servers <;> simp)

/-! ## Claim C10: RuntimeError handling of the synchronous wrapper -/

/-- C10 counterexample: the claim asserts the synchronous wrapper converts a
tool-raised `RuntimeError` into the "use the async ainvoke" `RuntimeError`,
but a registered tool's `RuntimeError` is caught inside `ainvoke`'s
per-call `except Exception` and recorded as an error entry, so the wrapper
returns a normal result record instead of raising. -/
theorem C10_counterexample :
    toolRte.run [] = .error (.runtimeError "nested runtime failure") ∧
    invoke agentFix false (.ok respRte) =
      .ok (.wrapped "rte" [.failure "rte" "nested runtime failure"]) := by
  constructor
  · rfl
  · decide

/-- C10 (amended): the synchronous wrapper converts every `RuntimeError`
escaping the asynchronous run — the nested-event-loop error and any
`RuntimeError` raised by model resolution or model invocation — into the
single "use the async ainvoke" `RuntimeError`, and such a model-raised
`RuntimeError` propagates unmodified only through `ainvoke`; a `RuntimeError`
raised by a registered tool never escapes the asynchronous run (it is
recorded as an error entry), so the wrapper returns normally. -/
theorem C10_theorem (agent : MCPToolAgent)
    (llmResult : Except PyError ModelResponse) :
    (∀ msg, llmResult = .error (.runtimeError msg) →
      ainvoke agent llmResult = .error (.runtimeError msg) ∧
      invoke agent false llmResult = .error (.runtimeError invokeFailedMsg)) ∧
    invoke agent true llmResult = .error (.runtimeError invokeFailedMsg) ∧
    (∀ resp, llmResult = .ok resp →
      ∃ v, invoke agent false llmResult = .ok v) := by
  refine ⟨?_, ?_, ?_⟩
  · intro msg h
    subst h
    exact ⟨rfl, rfl⟩
  · simp [invoke]
  · intro resp h
    subst h
    cases htc : resp.tool_calls with
    | none => exact ⟨.raw resp, by simp [invoke, ainvoke, htc]⟩
    | some calls =>
      cases calls with
      | nil => exact ⟨.raw resp, by simp [invoke, ainvoke, htc]⟩
      | cons c cs =>
          exact ⟨.wrapped (contentOf resp) (dispatchCalls agent.tools (c :: cs)),
            by simp [invoke, ainvoke, htc]⟩

/-- C10 witness: a model-raised `RuntimeError` propagates unmodified through
`ainvoke` but comes out of `invoke` as the "use the async ainvoke"
`RuntimeError`. -/
theorem C10_witness :
    (Except.error (.runtimeError "model failure") : Except PyError ModelResponse) =
      .error (.runtimeError "model failure") ∧
    ainvoke agentFix (.error (.runtimeError "model failure")) =
      .error (.runtimeError "model failure") ∧
    invoke agentFix false (.error (.runtimeError "model failure")) =
      .error (.runtimeError invokeFailedMsg) :=
  ⟨rfl,
    ((C10_theorem agentFix (.error (.runtimeError "model failure"))).1
      "model failure" rfl).1,
    ((C10_theorem agentFix (.error (.runtimeError "model failure"))).1
      "model failure" rfl).2⟩

end ConnectChain
